import Mathlib

/-!
Shallow embedding of the intent-based network monitoring and recovery
engine (`src/intent_monitor.py`) and verification of the specification
claims about it.

Modelling conventions:
* Python `float` measurements and thresholds are modelled as exact
  rationals (`ℚ`); the comparisons in the source are order comparisons,
  which the embedding preserves.
* Python `dict`s are modelled as association lists with `getK`/`setK`,
  where `setK` overwrites in place (preserving insertion order) exactly
  as a Python dict assignment does.
* The external network (Mininet) is an opaque probe: the four
  link-measurement checks (`_check_connectivity`, `_check_bandwidth`,
  `_check_delay`, `_check_packet_loss`) each return one of
  SATISFIED/VIOLATED/UNKNOWN together with an optional numeric reading,
  which is abstracted by a `ProbeResult` oracle in the environment.
  The CPU and memory checks are embedded fully, since their results do
  not depend on any measurement.
* Wall-clock timestamps are omitted: no verified claim mentions them.
-/

namespace IBN

/-- `IntentStatus` enum of the source (`intent_monitor.py`, lines 21-27). -/
inductive IntentStatus where
  | SATISFIED
  | VIOLATED
  | RECOVERING
  | UNRECOVERABLE
  | UNKNOWN
deriving DecidableEq, Repr

/-- `IntentType` enum of the source (`intent_monitor.py`, lines 30-39). -/
inductive IntentType where
  | CONNECTIVITY
  | BANDWIDTH
  | DELAY
  | PACKET_LOSS
  | JITTER
  | CPU_USAGE
  | MEMORY_USAGE
  | LINK_UTILIZATION
deriving DecidableEq, Repr

/-- Trend classification returned by `IntentMetric.get_trend`. -/
inductive Trend where
  | STABLE
  | IMPROVING
  | DEGRADING
deriving DecidableEq, Repr

/-- Expected values stored in intent specs: `True` for connectivity,
numbers for everything else. -/
inductive Val where
  | vBool (b : Bool)
  | vNum (q : ℚ)
deriving DecidableEq, Repr

section AssocMap

variable {α : Type} {β : Type} [DecidableEq α]

/-- Association-list lookup (model of Python `dict.get`). -/
def getK : List (α × β) → α → Option β
  | [], _ => none
  | (k', v) :: rest, k => if k' = k then some v else getK rest k

/-- Association-list update (model of Python `dict[k] = v`): overwrites
in place, appends at the end if the key is absent. -/
def setK : List (α × β) → α → β → List (α × β)
  | [], k, v => [(k, v)]
  | (k', v') :: rest, k, v =>
      if k' = k then (k, v) :: rest else (k', v') :: setK rest k v

@[simp] theorem getK_nil (k : α) : getK ([] : List (α × β)) k = none := rfl

@[simp] theorem getK_setK_same (m : List (α × β)) (k : α) (v : β) :
    getK (setK m k v) k = some v := by
  induction m with
  | nil => simp [getK, setK]
  | cons p rest ih =>
      obtain ⟨k', v'⟩ := p
      by_cases h : k' = k
      · simp [getK, setK, h]
      · simp [getK, setK, h, ih]

@[simp] theorem getK_setK_ne (m : List (α × β)) (k k' : α) (v : β) (h : k ≠ k') :
    getK (setK m k v) k' = getK m k' := by
  induction m with
  | nil => simp [getK, setK, h]
  | cons p rest ih =>
      obtain ⟨k₀, v₀⟩ := p
      by_cases h₀ : k₀ = k
      · subst h₀
        simp [getK, setK, h]
      · simp only [setK, if_neg h₀]
        by_cases h₁ : k₀ = k'
        · simp [getK, h₁]
        · simp [getK, h₁, ih]

/-- Keys of an association list. -/
def keysOf (m : List (α × β)) : List α := m.map Prod.fst

theorem getK_eq_none_of_not_mem (m : List (α × β)) (k : α)
    (h : k ∉ keysOf m) : getK m k = none := by
  induction m with
  | nil => rfl
  | cons p rest ih =>
      obtain ⟨k', v'⟩ := p
      simp only [keysOf, List.map_cons, List.mem_cons] at h
      push_neg at h
      simp [getK, Ne.symm h.1, ih (by simpa [keysOf] using h.2)]

theorem setK_eq_append_of_not_mem (m : List (α × β)) (k : α) (v : β)
    (h : k ∉ keysOf m) : setK m k v = m ++ [(k, v)] := by
  induction m with
  | nil => rfl
  | cons p rest ih =>
      obtain ⟨k', v'⟩ := p
      simp only [keysOf, List.map_cons, List.mem_cons] at h
      push_neg at h
      simp [setK, Ne.symm h.1, ih (by simpa [keysOf] using h.2)]

end AssocMap

/-! ### Metric history (`IntentMetric`, `intent_monitor.py` lines 55-84)

The source keeps `values` in a `deque(maxlen=10)`.  Appending to a
bounded deque keeps only the newest `maxlen` elements, which is exactly
`(values ++ [v]).drop (values.length + 1 - maxlen)`.  The parallel
`timestamps` deque is maintained identically and is omitted. -/

/-- `IntentMetric.add_measurement`: append to a deque of capacity `cap`. -/
def addMeasurement (cap : ℕ) (values : List ℚ) (v : ℚ) : List ℚ :=
  (values ++ [v]).drop (values.length + 1 - cap)

/-- `IntentMetric.get_trend` (`intent_monitor.py` lines 74-84): with
fewer than 3 samples return STABLE; otherwise compare the last of the
most recent 3 samples against the first times 1.1 resp. 0.9. -/
def getTrend (values : List ℚ) : Trend :=
  if values.length < 3 then Trend.STABLE
  else
    let recent := values.drop (values.length - 3)
    if recent.getLastD 0 > recent.headD 0 * (11 / 10) then Trend.DEGRADING
    else if recent.getLastD 0 < recent.headD 0 * (9 / 10) then Trend.IMPROVING
    else Trend.STABLE

/-- `IntentMetric.get_average` (`intent_monitor.py` lines 68-72). -/
def getAverage (values : List ℚ) : Option ℚ :=
  if values = [] then none else some ((values.foldl (· + ·) 0) / values.length)

/-- Folding a run of measurements through the bounded deque keeps
exactly the most recent `cap` ones, in order. -/
theorem foldl_addMeasurement_eq_drop (cap : ℕ) :
    ∀ (ms xs : List ℚ), xs.length ≤ cap →
      ms.foldl (addMeasurement cap) xs = (xs ++ ms).drop (xs.length + ms.length - cap) := by
  intro ms
  induction ms with
  | nil =>
      intro xs hxs
      simp only [List.foldl_nil, List.append_nil, List.length_nil, Nat.add_zero]
      rw [Nat.sub_eq_zero_of_le hxs, List.drop_zero]
  | cons v ms ih =>
      intro xs hxs
      have hlen : (addMeasurement cap xs v).length ≤ cap := by
        simp only [addMeasurement, List.length_drop, List.length_append,
          List.length_singleton]
        omega
      rw [List.foldl_cons, ih (addMeasurement cap xs v) hlen]
      have hd : xs.length + 1 - cap ≤ (xs ++ [v]).length := by
        simp only [List.length_append, List.length_singleton]; omega
      rw [addMeasurement, List.length_drop,
        ← List.drop_append_of_le_length hd, List.drop_drop,
        List.length_append, List.length_singleton]
      have hassoc : xs ++ [v] ++ ms = xs ++ v :: ms := by
        simp
      rw [hassoc]
      congr 1
      simp only [List.length_cons]
      omega

/-! ### Intent model and derivation (`IntentMonitor._parse_intents`,
`intent_monitor.py` lines 118-204) -/

/-- An intent specification dict as built by `_parse_intents`: the
`type` key is always present; connection intents carry an `endpoints`
pair, host intents a `host` id; `expected`/`unit` as in the source. -/
structure IntentSpec where
  type : IntentType
  endpoints : Option (String × String) := none
  host : Option String := none
  expected : Option Val := none
  unit : Option String := none
deriving DecidableEq, Repr

/-- A connection record of the topology snapshot: an `ENDPOINTS` list
and a `PARAMS` map.  Parameter values (`bandwidth`, `delay`, `loss`,
`jitter`) are modelled after the numeric parsing the source applies
(`float(...)`, `'ms'` stripping). -/
structure Connection where
  endpoints : List String
  params : List (String × ℚ)
deriving DecidableEq, Repr

/-- A host record of the topology snapshot; `cpu`/`memory` caps are
optional keys (memory already converted to MB as in the source). -/
structure Host where
  id : String
  cpu : Option ℚ := none
  memory : Option ℚ := none
deriving DecidableEq, Repr

/-- The topology snapshot consumed by `_parse_intents`. -/
structure Topology where
  connections : List Connection
  hosts : List Host
deriving DecidableEq, Repr

/-- The intent dict entries generated for one connection, in source
order: the implicit connectivity intent, then one intent per parameter
among `bandwidth`, `delay`, `loss`, `jitter` present in its params.
Connections without exactly two endpoints generate nothing. -/
def connIntents (c : Connection) : List (String × IntentSpec) :=
  match c.endpoints with
  | [e1, e2] =>
      let connId := e1 ++ "-" ++ e2
      let eps : Option (String × String) := some (e1, e2)
      [("conn_" ++ connId,
        { type := IntentType.CONNECTIVITY, endpoints := eps,
          expected := some (Val.vBool true) })]
      ++ (match getK c.params "bandwidth" with
          | some q => [("bw_" ++ connId,
              { type := IntentType.BANDWIDTH, endpoints := eps,
                expected := some (Val.vNum q), unit := some "Mbps" })]
          | none => [])
      ++ (match getK c.params "delay" with
          | some q => [("delay_" ++ connId,
              { type := IntentType.DELAY, endpoints := eps,
                expected := some (Val.vNum q), unit := some "ms" })]
          | none => [])
      ++ (match getK c.params "loss" with
          | some q => [("loss_" ++ connId,
              { type := IntentType.PACKET_LOSS, endpoints := eps,
                expected := some (Val.vNum q), unit := some "%" })]
          | none => [])
      ++ (match getK c.params "jitter" with
          | some q => [("jitter_" ++ connId,
              { type := IntentType.JITTER, endpoints := eps,
                expected := some (Val.vNum q), unit := some "ms" })]
          | none => [])
  | _ => []

/-- The intent dict entries generated for one host record: a CPU-usage
intent if the `cpu` cap is present, then a memory-usage intent if the
`memory` cap is present. -/
def hostIntents (h : Host) : List (String × IntentSpec) :=
  (match h.cpu with
   | some q => [("cpu_" ++ h.id,
       { type := IntentType.CPU_USAGE, host := some h.id,
         expected := some (Val.vNum q), unit := some "cores" })]
   | none => [])
  ++ (match h.memory with
      | some q => [("mem_" ++ h.id,
          { type := IntentType.MEMORY_USAGE, host := some h.id,
            expected := some (Val.vNum q), unit := some "MB" })]
      | none => [])

/-- All dict assignments performed by `_parse_intents`, in execution
order: connections first, then hosts. -/
def intentPairs (t : Topology) : List (String × IntentSpec) :=
  (t.connections.map connIntents).flatten ++ (t.hosts.map hostIntents).flatten

/-- Successive dict assignments (model of the loop body writes). -/
def insertAll {α β : Type} [DecidableEq α]
    (m : List (α × β)) (ps : List (α × β)) : List (α × β) :=
  ps.foldl (fun acc p => setK acc p.1 p.2) m

/-- `IntentMonitor._parse_intents`: builds the intent dict by the
assignments of `intentPairs`, starting from the empty dict. -/
def parseIntents (t : Topology) : List (String × IntentSpec) :=
  insertAll [] (intentPairs t)

theorem insertAll_eq_append {α β : Type} [DecidableEq α] :
    ∀ (ps m : List (α × β)), (keysOf ps).Nodup →
      (∀ k ∈ keysOf ps, k ∉ keysOf m) → insertAll m ps = m ++ ps := by
  intro ps
  induction ps with
  | nil => intro m _ _; simp [insertAll]
  | cons p ps ih =>
      intro m hnd hfresh
      obtain ⟨k, v⟩ := p
      simp only [keysOf, List.map_cons, List.nodup_cons] at hnd
      have hkm : k ∉ keysOf m := hfresh k (by simp [keysOf])
      have hstep : setK m k v = m ++ [(k, v)] :=
        setK_eq_append_of_not_mem m k v hkm
      simp only [insertAll, List.foldl_cons] at *
      rw [hstep, ih (m ++ [(k, v)]) hnd.2]
      · simp
      · intro k' hk'
        have hmem : k' ∈ keysOf ((k, v) :: ps) := by
          simp only [keysOf, List.map_cons, List.mem_cons]
          exact Or.inr (by simpa [keysOf] using hk')
        simp only [keysOf, List.map_append, List.map_cons, List.map_nil,
          List.mem_append, List.mem_singleton]
        push_neg
        refine ⟨hfresh k' hmem, ?_⟩
        intro hkk
        exact hnd.1 (hkk ▸ (by simpa [keysOf] using hk'))

/-- Membership test on an intent entry's type. -/
def isType (ty : IntentType) (p : String × IntentSpec) : Bool :=
  decide (p.2.type = ty)

theorem sum_map_ite_eq_countP {α : Type} (f : α → Bool) :
    ∀ l : List α, (l.map (fun a => if f a then 1 else 0)).sum = l.countP f := by
  intro l
  induction l with
  | nil => simp
  | cons a l ih =>
      by_cases h : f a
      · simp [List.countP_cons, h, ih, Nat.add_comm]
      · simp [List.countP_cons, h, ih]

theorem sum_map_ite_prop {α : Type} (P : α → Prop) [DecidablePred P] :
    ∀ l : List α,
      (l.map (fun a => if P a then 1 else 0)).sum =
        l.countP (fun a => decide (P a)) := by
  intro l
  induction l with
  | nil => simp
  | cons a l ih =>
      by_cases h : P a
      · simp [List.countP_cons, h, ih, Nat.add_comm]
      · simp [List.countP_cons, h, ih]

theorem countP_connIntents_connectivity (c : Connection) :
    (connIntents c).countP (isType IntentType.CONNECTIVITY) =
      if c.endpoints.length = 2 then 1 else 0 := by
  obtain ⟨eps, params⟩ := c
  rcases eps with _ | ⟨e1, _ | ⟨e2, _ | ⟨e3, rest⟩⟩⟩
  · simp [connIntents]
  · simp [connIntents]
  · simp only [connIntents]
    cases getK params "bandwidth" <;> cases getK params "delay" <;>
      cases getK params "loss" <;> cases getK params "jitter" <;>
        simp [isType, List.countP_append, List.countP_cons]
  · simp [connIntents]

theorem countP_connIntents_bandwidth (c : Connection) :
    (connIntents c).countP (isType IntentType.BANDWIDTH) =
      if c.endpoints.length = 2 ∧ (getK c.params "bandwidth").isSome
      then 1 else 0 := by
  obtain ⟨eps, params⟩ := c
  rcases eps with _ | ⟨e1, _ | ⟨e2, _ | ⟨e3, rest⟩⟩⟩
  · simp [connIntents]
  · simp [connIntents]
  · simp only [connIntents]
    cases getK params "bandwidth" <;> cases getK params "delay" <;>
      cases getK params "loss" <;> cases getK params "jitter" <;>
        simp [isType, List.countP_append, List.countP_cons]
  · simp [connIntents]

theorem countP_connIntents_delay (c : Connection) :
    (connIntents c).countP (isType IntentType.DELAY) =
      if c.endpoints.length = 2 ∧ (getK c.params "delay").isSome
      then 1 else 0 := by
  obtain ⟨eps, params⟩ := c
  rcases eps with _ | ⟨e1, _ | ⟨e2, _ | ⟨e3, rest⟩⟩⟩
  · simp [connIntents]
  · simp [connIntents]
  · simp only [connIntents]
    cases getK params "bandwidth" <;> cases getK params "delay" <;>
      cases getK params "loss" <;> cases getK params "jitter" <;>
        simp [isType, List.countP_append, List.countP_cons]
  · simp [connIntents]

theorem countP_connIntents_loss (c : Connection) :
    (connIntents c).countP (isType IntentType.PACKET_LOSS) =
      if c.endpoints.length = 2 ∧ (getK c.params "loss").isSome
      then 1 else 0 := by
  obtain ⟨eps, params⟩ := c
  rcases eps with _ | ⟨e1, _ | ⟨e2, _ | ⟨e3, rest⟩⟩⟩
  · simp [connIntents]
  · simp [connIntents]
  · simp only [connIntents]
    cases getK params "bandwidth" <;> cases getK params "delay" <;>
      cases getK params "loss" <;> cases getK params "jitter" <;>
        simp [isType, List.countP_append, List.countP_cons]
  · simp [connIntents]

theorem countP_connIntents_jitter (c : Connection) :
    (connIntents c).countP (isType IntentType.JITTER) =
      if c.endpoints.length = 2 ∧ (getK c.params "jitter").isSome
      then 1 else 0 := by
  obtain ⟨eps, params⟩ := c
  rcases eps with _ | ⟨e1, _ | ⟨e2, _ | ⟨e3, rest⟩⟩⟩
  · simp [connIntents]
  · simp [connIntents]
  · simp only [connIntents]
    cases getK params "bandwidth" <;> cases getK params "delay" <;>
      cases getK params "loss" <;> cases getK params "jitter" <;>
        simp [isType, List.countP_append, List.countP_cons]
  · simp [connIntents]

theorem countP_hostIntents_cpu (h : Host) :
    (hostIntents h).countP (isType IntentType.CPU_USAGE) =
      if h.cpu.isSome then 1 else 0 := by
  obtain ⟨i, cpu, mem⟩ := h
  cases cpu <;> cases mem <;>
    simp [hostIntents, isType, List.countP_append, List.countP_cons]

theorem countP_hostIntents_mem (h : Host) :
    (hostIntents h).countP (isType IntentType.MEMORY_USAGE) =
      if h.memory.isSome then 1 else 0 := by
  obtain ⟨i, cpu, mem⟩ := h
  cases cpu <;> cases mem <;>
    simp [hostIntents, isType, List.countP_append, List.countP_cons]

theorem countP_hostIntents_conn_types (h : Host) (ty : IntentType)
    (hty : ty = IntentType.CONNECTIVITY ∨ ty = IntentType.BANDWIDTH ∨
      ty = IntentType.DELAY ∨ ty = IntentType.PACKET_LOSS ∨
      ty = IntentType.JITTER) :
    (hostIntents h).countP (isType ty) = 0 := by
  obtain ⟨i, cpu, mem⟩ := h
  rcases hty with rfl | rfl | rfl | rfl | rfl <;> cases cpu <;> cases mem <;>
    simp [hostIntents, isType, List.countP_append, List.countP_cons]

theorem countP_connIntents_host_types (c : Connection) (ty : IntentType)
    (hty : ty = IntentType.CPU_USAGE ∨ ty = IntentType.MEMORY_USAGE) :
    (connIntents c).countP (isType ty) = 0 := by
  obtain ⟨eps, params⟩ := c
  rcases eps with _ | ⟨e1, _ | ⟨e2, _ | ⟨e3, rest⟩⟩⟩
  · simp [connIntents]
  · simp [connIntents]
  · rcases hty with rfl | rfl <;>
      · simp only [connIntents]
        cases getK params "bandwidth" <;> cases getK params "delay" <;>
          cases getK params "loss" <;> cases getK params "jitter" <;>
            simp [isType, List.countP_append, List.countP_cons]
  · simp [connIntents]

/-- Count of intents of a connection-side type in the full derivation
output (before dict insertion). -/
theorem countP_intentPairs_conn (t : Topology) (ty : IntentType)
    (hty : ty = IntentType.CONNECTIVITY ∨ ty = IntentType.BANDWIDTH ∨
      ty = IntentType.DELAY ∨ ty = IntentType.PACKET_LOSS ∨
      ty = IntentType.JITTER) :
    (intentPairs t).countP (isType ty) =
      (t.connections.map (fun c => (connIntents c).countP (isType ty))).sum := by
  simp only [intentPairs, List.countP_append, List.countP_flatten,
    List.map_map, Function.comp_def]
  have h0 : (t.hosts.map fun h => List.countP (isType ty) (hostIntents h)).sum = 0 :=
    List.sum_eq_zero (by
      intro x hx
      obtain ⟨h, _, rfl⟩ := List.mem_map.1 hx
      exact countP_hostIntents_conn_types h ty hty)
  rw [h0]
  exact Nat.add_zero _

/-- Count of intents of a host-side type in the full derivation
output (before dict insertion). -/
theorem countP_intentPairs_host (t : Topology) (ty : IntentType)
    (hty : ty = IntentType.CPU_USAGE ∨ ty = IntentType.MEMORY_USAGE) :
    (intentPairs t).countP (isType ty) =
      (t.hosts.map (fun h => (hostIntents h).countP (isType ty))).sum := by
  simp only [intentPairs, List.countP_append, List.countP_flatten,
    List.map_map, Function.comp_def]
  have h0 : (t.connections.map fun c => List.countP (isType ty) (connIntents c)).sum = 0 :=
    List.sum_eq_zero (by
      intro x hx
      obtain ⟨c, _, rfl⟩ := List.mem_map.1 hx
      exact countP_connIntents_host_types c ty hty)
  rw [h0]
  exact Nat.zero_add _

/-- Written from the spec sentence "one implicit CONNECTIVITY intent
per unordered pair of hosts (full-mesh assumption)": the list of all
unordered pairs of hosts of the snapshot.  Used only to compare the
spec's full-mesh derivation with the source's per-connection one. -/
def specFullMeshPairs : List Host → List (String × String)
  | [] => []
  | h :: rest => rest.map (fun h2 => (h.id, h2.id)) ++ specFullMeshPairs rest

/-! ### Monitoring and recovery engine (`IntentMonitor`)

The mutable attributes of the `IntentMonitor` object that the verified
claims mention, as one state record.  The `recovery_attempts` dict is
keyed by the string `f"{intent_id}_{intent_type}"` in the source, which
is modelled as the pair `(intentId, intentType)` (the f-string is
injective on those pairs since enum reprs are distinct and contain no
ambiguity relevant here).  Counters are integers, as in Python. -/

/-- A detected intent violation (`IntentViolation` dataclass,
`intent_monitor.py` lines 42-52); the wall-clock timestamp is
omitted. -/
structure IntentViolation where
  intent_id : String
  intent_type : IntentType
  expected_value : Option Val
  actual_value : Option ℚ
  component_id : String
  severity : String := "MEDIUM"
  message : String := ""
deriving DecidableEq, Repr

/-- Outcome of one of the four probe-based checks
(`_check_connectivity`, `_check_bandwidth`, `_check_delay`,
`_check_packet_loss`): each of those returns SATISFIED or VIOLATED with
a numeric reading (booleans read back as 0/1), or UNKNOWN with `None`
when the network is absent, the shell is unhealthy, or the measurement
is unparsable. -/
inductive ProbeResult where
  | ok (v : ℚ)
  | bad (v : ℚ)
  | unknown
deriving DecidableEq, Repr

/-- Status/reading pair produced from a probe outcome. -/
def probeToPair : ProbeResult → IntentStatus × Option ℚ
  | ProbeResult.ok v => (IntentStatus.SATISFIED, some v)
  | ProbeResult.bad v => (IntentStatus.VIOLATED, some v)
  | ProbeResult.unknown => (IntentStatus.UNKNOWN, none)

/-- A node handle of the Mininet instance, as far as
`_check_memory_usage` inspects it (`hasattr(host, 'cmd')`). -/
structure NetHost where
  hasCmd : Bool
deriving DecidableEq, Repr

/-- The Mininet instance, as far as `_check_memory_usage` uses it:
`net.get(host_id)` may or may not find a node. -/
structure Net where
  get : String → Option NetHost

/-- The opaque external world: measurement outcomes for the four
probe-based checks and success/failure of the type-specific recovery
strategies (which only touch the network, never the monitor state). -/
structure Env where
  probe : IntentSpec → ProbeResult
  recoverOk : IntentViolation → Bool

/-- Python exceptions distinguished by the embedding. -/
inductive PyError where
  | attributeError
deriving DecidableEq, Repr

/-- The `try:` body of `_check_memory_usage` (`intent_monitor.py`
lines 451-463).  When the host is found and has a `cmd` attribute, the
guard calls `self._ncheck_shell_health(host)` — a method that does not
exist anywhere in the class (the defined one is `_check_shell_health`)
— so Python raises `AttributeError` at that point. -/
def checkMemoryUsageBody (n : Net) (hostId : String) :
    Except PyError (IntentStatus × Option ℚ) :=
  match n.get hostId with
  | some h =>
      if h.hasCmd then Except.error PyError.attributeError
      else Except.ok (IntentStatus.UNKNOWN, none)
  | none => Except.ok (IntentStatus.UNKNOWN, none)

/-- `IntentMonitor._check_memory_usage` (`intent_monitor.py` lines
445-466): `UNKNOWN` without a net; otherwise the `try` body with its
`except Exception: pass` falling through to `(UNKNOWN, None)`. -/
def checkMemoryUsage (net : Option Net) (spec : IntentSpec) :
    IntentStatus × Option ℚ :=
  match net with
  | none => (IntentStatus.UNKNOWN, none)
  | some n =>
      match checkMemoryUsageBody n (spec.host.getD "") with
      | Except.ok r => r
      | Except.error _ => (IntentStatus.UNKNOWN, none)

/-- `IntentMonitor._check_cpu_usage` (`intent_monitor.py` lines
441-443): returns `(SATISFIED, 0)` unconditionally. -/
def checkCpuUsage (_spec : IntentSpec) : IntentStatus × Option ℚ :=
  (IntentStatus.SATISFIED, some 0)

/-- `IntentMonitor._check_intent` (`intent_monitor.py` lines 309-326):
dispatch on the intent type; types without a branch (JITTER,
LINK_UTILIZATION) fall into the final `else` returning
`(UNKNOWN, None)`. -/
def checkIntent (env : Env) (net : Option Net) (spec : IntentSpec) :
    IntentStatus × Option ℚ :=
  match spec.type with
  | IntentType.CONNECTIVITY => probeToPair (env.probe spec)
  | IntentType.BANDWIDTH => probeToPair (env.probe spec)
  | IntentType.DELAY => probeToPair (env.probe spec)
  | IntentType.PACKET_LOSS => probeToPair (env.probe spec)
  | IntentType.CPU_USAGE => checkCpuUsage spec
  | IntentType.MEMORY_USAGE => checkMemoryUsage net spec
  | IntentType.JITTER => (IntentStatus.UNKNOWN, none)
  | IntentType.LINK_UTILIZATION => (IntentStatus.UNKNOWN, none)

/-- `IntentMonitor._get_component_id` (`intent_monitor.py` lines
468-474). -/
def getComponentId (spec : IntentSpec) : String :=
  match spec.endpoints with
  | some (a, b) => a ++ "-" ++ b
  | none => spec.host.getD "unknown"

/-- The `IntentViolation` record built at `intent_monitor.py` lines
297-304. -/
def mkViolation (intentId : String) (spec : IntentSpec)
    (actual : Option ℚ) : IntentViolation :=
  { intent_id := intentId
    intent_type := spec.type
    expected_value := spec.expected
    actual_value := actual
    component_id := getComponentId spec }

/-- `IntentMonitor._initialize_recovery_strategies` (`intent_monitor.py`
lines 206-216): every type has a strategy except JITTER. -/
def hasRecoveryStrategy : IntentType → Bool
  | IntentType.CONNECTIVITY => true
  | IntentType.BANDWIDTH => true
  | IntentType.DELAY => true
  | IntentType.PACKET_LOSS => true
  | IntentType.CPU_USAGE => true
  | IntentType.MEMORY_USAGE => true
  | IntentType.LINK_UTILIZATION => true
  | IntentType.JITTER => false

/-- The mutable monitor state shared by the monitoring and recovery
loops.  `notifications` collects `_notify_operator` calls as
`(intent_id, reason)`; `log` collects the prints of the dispatcher. -/
structure MonitorState where
  intents : List (String × IntentSpec)
  intentStatus : List (String × IntentStatus)
  intentMetrics : List (String × List ℚ)
  violations : List IntentViolation
  recoveryActions : List IntentViolation
  recoveryEnabled : Bool
  maxRecoveryAttempts : ℤ
  recoveryAttempts : List ((String × IntentType) × ℤ)
  notifications : List (String × String)
  log : List String

/-- The three pieces of state written by the loop body of
`_check_all_intents` (`intent_monitor.py` lines 281-307). -/
structure CheckAcc where
  intentStatus : List (String × IntentStatus)
  intentMetrics : List (String × List ℚ)
  viols : List IntentViolation
deriving Repr

/-- One iteration of the `_check_all_intents` loop for one
`(intent_id, intent_spec)` entry: check, create the metric record if
absent, record a numeric reading, store the status, and collect a
violation when the status is VIOLATED. -/
def checkStep (env : Env) (net : Option Net) (acc : CheckAcc)
    (p : String × IntentSpec) : CheckAcc :=
  let intentId := p.1
  let spec := p.2
  let res := checkIntent env net spec
  let metrics0 :=
    match getK acc.intentMetrics intentId with
    | some _ => acc.intentMetrics
    | none => setK acc.intentMetrics intentId []
  let metrics1 :=
    match res.2 with
    | some v =>
        setK metrics0 intentId
          (addMeasurement 10 ((getK metrics0 intentId).getD []) v)
    | none => metrics0
  { intentStatus := setK acc.intentStatus intentId res.1
    intentMetrics := metrics1
    viols :=
      if res.1 = IntentStatus.VIOLATED then
        acc.viols ++ [mkViolation intentId spec res.2]
      else acc.viols }

/-- `IntentMonitor._check_all_intents`: fold the loop body over the
intent dict; returns the updated state and the violations found. -/
def checkAllIntents (env : Env) (net : Option Net) (s : MonitorState) :
    MonitorState × List IntentViolation :=
  let acc := s.intents.foldl (checkStep env net)
    { intentStatus := s.intentStatus
      intentMetrics := s.intentMetrics
      viols := [] }
  ({ s with intentStatus := acc.intentStatus
            intentMetrics := acc.intentMetrics }, acc.viols)

/-- `IntentMonitor._can_recover` (`intent_monitor.py` lines 489-497),
as a function of the attempt-counter dict and the configured maximum. -/
def canRecoverAux (attempts : List ((String × IntentType) × ℤ))
    (maxAttempts : ℤ) (v : IntentViolation) : Bool :=
  let a := (getK attempts (v.intent_id, v.intent_type)).getD 0
  if a ≥ maxAttempts then false
  else hasRecoveryStrategy v.intent_type

/-- `IntentMonitor._can_recover` on the monitor state. -/
def canRecover (s : MonitorState) (v : IntentViolation) : Bool :=
  canRecoverAux s.recoveryAttempts s.maxRecoveryAttempts v

/-- One iteration of the `_handle_violations` loop (`intent_monitor.py`
lines 476-487): append to the violation history, log, then either
enqueue for recovery or notify the operator. -/
def handleViolation1 (s : MonitorState) (v : IntentViolation) : MonitorState :=
  -- the history append and `_log_violation` happen before the gate in
  -- the source; the gate (`recovery_enabled`, `_can_recover`) reads
  -- only the attempt counters and configuration, which that append
  -- does not touch, so it is evaluated against `s` here
  let s0 := { s with violations := s.violations ++ [v],
                     log := s.log ++ ["violation " ++ v.intent_id] }
  if s.recoveryEnabled && canRecover s v then
    { s0 with recoveryActions := s0.recoveryActions ++ [v] }
  else if s.recoveryEnabled && !(canRecover s v) then
    let n1 := s0.notifications ++ [(v.intent_id, "Max recovery attempts reached.")]
    { s0 with notifications := n1 }
  else
    let n2 := s0.notifications ++ [(v.intent_id, "Automatic recovery is disabled.")]
    { s0 with notifications := n2 }

/-- `IntentMonitor._handle_violations`. -/
def handleViolations (s : MonitorState) (vs : List IntentViolation) :
    MonitorState :=
  vs.foldl handleViolation1 s

/-- The unconditional counter increment at the start of
`_execute_recovery` (`intent_monitor.py` lines 503-504), performed
before the recovery handler runs. -/
def bumpAttempts (s : MonitorState) (v : IntentViolation) : MonitorState :=
  let key := (v.intent_id, v.intent_type)
  let bumped := setK s.recoveryAttempts key ((getK s.recoveryAttempts key).getD 0 + 1)
  { s with recoveryAttempts := bumped }

/-- `IntentMonitor._execute_recovery` (`intent_monitor.py` lines
499-516): bump the counter, look up the strategy, run it; on success
reset the counter to 0, on failure notify the operator when the counter
has reached the maximum. -/
def executeRecovery (env : Env) (s : MonitorState) (v : IntentViolation) :
    MonitorState :=
  let key := (v.intent_id, v.intent_type)
  let s1 := bumpAttempts
    { s with log := s.log ++ ["recovery_attempt " ++ v.intent_id] } v
  if hasRecoveryStrategy v.intent_type then
    if env.recoverOk v then
      { s1 with log := s1.log ++ ["recovery_success " ++ v.intent_id],
                recoveryAttempts := setK s1.recoveryAttempts key 0 }
    else
      let s2 := { s1 with log := s1.log ++ ["recovery_failed " ++ v.intent_id] }
      if (getK s1.recoveryAttempts key).getD 0 ≥ s1.maxRecoveryAttempts then
        let n3 := s2.notifications ++ [(v.intent_id, "Recovery failed after max attempts.")]
        { s2 with notifications := n3 }
      else s2
  else s1

/-- One pass of the body of `_recovery_loop` (`intent_monitor.py` lines
268-279): pop the oldest queued violation, if any, and execute it. -/
def recoveryStep (env : Env) (s : MonitorState) : MonitorState :=
  match s.recoveryActions with
  | [] => s
  | a :: rest => executeRecovery env { s with recoveryActions := rest } a

/-- One pass of the body of `_monitoring_loop` (`intent_monitor.py`
lines 251-266): check all intents, then handle the violations if there
are any. -/
def monitorTick (env : Env) (net : Option Net) (s : MonitorState) :
    MonitorState :=
  let r := checkAllIntents env net s
  if r.2.isEmpty then r.1 else handleViolations r.1 r.2

/-! ### Characterization lemmas for one monitor tick -/

theorem checkMemoryUsage_eq (net : Option Net) (spec : IntentSpec) :
    checkMemoryUsage net spec = (IntentStatus.UNKNOWN, none) := by
  cases net with
  | none => rfl
  | some n =>
      simp only [checkMemoryUsage, checkMemoryUsageBody]
      cases n.get (spec.host.getD "") with
      | none => rfl
      | some h =>
          by_cases hc : h.hasCmd <;> simp [hc]

/-- Every status `_check_intent` can produce is SATISFIED, VIOLATED or
UNKNOWN: the checks never write RECOVERING or UNRECOVERABLE. -/
theorem checkIntent_status_mem (env : Env) (net : Option Net)
    (spec : IntentSpec) :
    (checkIntent env net spec).1 = IntentStatus.SATISFIED ∨
    (checkIntent env net spec).1 = IntentStatus.VIOLATED ∨
    (checkIntent env net spec).1 = IntentStatus.UNKNOWN := by
  cases hty : spec.type <;>
    simp only [checkIntent, hty, checkCpuUsage, checkMemoryUsage_eq]
  case CONNECTIVITY => cases env.probe spec <;> simp [probeToPair]
  case BANDWIDTH => cases env.probe spec <;> simp [probeToPair]
  case DELAY => cases env.probe spec <;> simp [probeToPair]
  case PACKET_LOSS => cases env.probe spec <;> simp [probeToPair]
  case CPU_USAGE => simp
  case MEMORY_USAGE => simp
  case JITTER => simp
  case LINK_UTILIZATION => simp

/-- The violation that one loop iteration of `_check_all_intents`
contributes for one intent entry, if any. -/
def violOf (env : Env) (net : Option Net) (p : String × IntentSpec) :
    Option IntentViolation :=
  if (checkIntent env net p.2).1 = IntentStatus.VIOLATED then
    some (mkViolation p.1 p.2 (checkIntent env net p.2).2)
  else none

theorem checkStep_viols (env : Env) (net : Option Net) (acc : CheckAcc)
    (p : String × IntentSpec) :
    (checkStep env net acc p).viols = acc.viols ++ (violOf env net p).toList := by
  simp only [checkStep, violOf]
  split
  · simp_all
  · simp_all

theorem foldl_checkStep_viols (env : Env) (net : Option Net) :
    ∀ (ps : List (String × IntentSpec)) (acc : CheckAcc),
      (ps.foldl (checkStep env net) acc).viols =
        acc.viols ++ ps.filterMap (violOf env net) := by
  intro ps
  induction ps with
  | nil => intro acc; simp
  | cons p ps ih =>
      intro acc
      rw [List.foldl_cons, ih, checkStep_viols, List.filterMap_cons]
      cases violOf env net p <;> simp

theorem checkStep_status_ne (env : Env) (net : Option Net) (acc : CheckAcc)
    (p : String × IntentSpec) (k : String) (hk : k ≠ p.1) :
    getK (checkStep env net acc p).intentStatus k = getK acc.intentStatus k := by
  simp only [checkStep]
  exact getK_setK_ne _ _ _ _ (fun h => hk h.symm)

theorem checkStep_status_eq (env : Env) (net : Option Net) (acc : CheckAcc)
    (p : String × IntentSpec) :
    getK (checkStep env net acc p).intentStatus p.1 =
      some (checkIntent env net p.2).1 := by
  simp only [checkStep]
  exact getK_setK_same _ _ _

theorem foldl_checkStep_status_not_mem (env : Env) (net : Option Net) :
    ∀ (ps : List (String × IntentSpec)) (acc : CheckAcc) (k : String),
      k ∉ keysOf ps →
      getK (ps.foldl (checkStep env net) acc).intentStatus k =
        getK acc.intentStatus k := by
  intro ps
  induction ps with
  | nil => intro acc k _; rfl
  | cons p ps ih =>
      intro acc k hk
      simp only [keysOf, List.map_cons, List.mem_cons] at hk
      push_neg at hk
      rw [List.foldl_cons, ih _ k (by simpa [keysOf] using hk.2),
        checkStep_status_ne env net acc p k hk.1]

/-- With unique keys, the status written for an intent is exactly its
check result. -/
theorem foldl_checkStep_status_mem (env : Env) (net : Option Net) :
    ∀ (ps : List (String × IntentSpec)) (acc : CheckAcc)
      (intentId : String) (spec : IntentSpec),
      (intentId, spec) ∈ ps → (keysOf ps).Nodup →
      getK (ps.foldl (checkStep env net) acc).intentStatus intentId =
        some (checkIntent env net spec).1 := by
  intro ps
  induction ps with
  | nil => intro acc i spec h _; cases h
  | cons p ps ih =>
      intro acc intentId spec hmem hnd
      simp only [keysOf, List.map_cons, List.nodup_cons] at hnd
      rcases List.mem_cons.1 hmem with heq | htail
      · subst heq
        rw [List.foldl_cons,
          foldl_checkStep_status_not_mem env net ps _ intentId
            (by simpa [keysOf] using hnd.1),
          checkStep_status_eq]
      · rw [List.foldl_cons]
        exact ih (checkStep env net acc p) intentId spec htail hnd.2

/-- Any status present after the loop either came from a check of one
of the processed intents or was already present. -/
theorem foldl_checkStep_status_cases (env : Env) (net : Option Net) :
    ∀ (ps : List (String × IntentSpec)) (acc : CheckAcc)
      (k : String) (st : IntentStatus),
      getK (ps.foldl (checkStep env net) acc).intentStatus k = some st →
      (∃ spec, (k, spec) ∈ ps ∧ st = (checkIntent env net spec).1) ∨
        getK acc.intentStatus k = some st := by
  intro ps
  induction ps with
  | nil => intro acc k st h; exact Or.inr h
  | cons p ps ih =>
      intro acc k st h
      rw [List.foldl_cons] at h
      rcases ih (checkStep env net acc p) k st h with ⟨spec, hmem, hst⟩ | hacc
      · exact Or.inl ⟨spec, List.mem_cons_of_mem _ hmem, hst⟩
      · by_cases hk : k = p.1
        · subst hk
          rw [checkStep_status_eq] at hacc
          exact Or.inl ⟨p.2, by simp, (Option.some_inj.1 hacc).symm⟩
        · rw [checkStep_status_ne env net acc p k hk] at hacc
          exact Or.inr hacc

/-- The metric history an intent's entry holds after its loop
iteration, as a function of the previous entry and the reading. -/
def metricAfter (m : Option (List ℚ)) (actual : Option ℚ) : List ℚ :=
  match actual with
  | some v => addMeasurement 10 (m.getD []) v
  | none => m.getD []

theorem checkStep_metrics_eq (env : Env) (net : Option Net) (acc : CheckAcc)
    (p : String × IntentSpec) :
    getK (checkStep env net acc p).intentMetrics p.1 =
      some (metricAfter (getK acc.intentMetrics p.1)
        (checkIntent env net p.2).2) := by
  simp only [checkStep, metricAfter]
  cases hm : getK acc.intentMetrics p.1 <;>
    cases ha : (checkIntent env net p.2).2 <;>
      simp [hm, ha, getK_setK_same]

theorem checkStep_metrics_ne (env : Env) (net : Option Net) (acc : CheckAcc)
    (p : String × IntentSpec) (k : String) (hk : k ≠ p.1) :
    getK (checkStep env net acc p).intentMetrics k =
      getK acc.intentMetrics k := by
  have hne : p.1 ≠ k := fun h => hk h.symm
  simp only [checkStep]
  cases hm : getK acc.intentMetrics p.1 <;>
    cases ha : (checkIntent env net p.2).2 <;>
      simp [hm, ha, getK_setK_ne _ _ _ _ hne]

theorem foldl_checkStep_metrics_not_mem (env : Env) (net : Option Net) :
    ∀ (ps : List (String × IntentSpec)) (acc : CheckAcc) (k : String),
      k ∉ keysOf ps →
      getK (ps.foldl (checkStep env net) acc).intentMetrics k =
        getK acc.intentMetrics k := by
  intro ps
  induction ps with
  | nil => intro acc k _; rfl
  | cons p ps ih =>
      intro acc k hk
      simp only [keysOf, List.map_cons, List.mem_cons] at hk
      push_neg at hk
      rw [List.foldl_cons, ih _ k (by simpa [keysOf] using hk.2),
        checkStep_metrics_ne env net acc p k hk.1]

/-- With unique keys, the metric entry written for an intent is exactly
the previous entry (created empty if absent) extended by the reading,
if numeric. -/
theorem foldl_checkStep_metrics_mem (env : Env) (net : Option Net) :
    ∀ (ps : List (String × IntentSpec)) (acc : CheckAcc)
      (intentId : String) (spec : IntentSpec),
      (intentId, spec) ∈ ps → (keysOf ps).Nodup →
      getK (ps.foldl (checkStep env net) acc).intentMetrics intentId =
        some (metricAfter (getK acc.intentMetrics intentId)
          (checkIntent env net spec).2) := by
  intro ps
  induction ps with
  | nil => intro acc i spec h _; cases h
  | cons p ps ih =>
      intro acc intentId spec hmem hnd
      simp only [keysOf, List.map_cons, List.nodup_cons] at hnd
      rcases List.mem_cons.1 hmem with heq | htail
      · subst heq
        rw [List.foldl_cons,
          foldl_checkStep_metrics_not_mem env net ps _ intentId
            (by simpa [keysOf] using hnd.1),
          checkStep_metrics_eq]
      · have hne : intentId ≠ p.1 := by
          intro h
          exact hnd.1 (h ▸ List.mem_map_of_mem Prod.fst htail)
        rw [List.foldl_cons,
          ih (checkStep env net acc p) intentId spec htail hnd.2,
          checkStep_metrics_ne env net acc p intentId hne]

/-- `_check_all_intents` only rewrites the status and metric maps: the
queue, counters, history, configuration and log are untouched. -/
theorem checkAllIntents_frame (env : Env) (net : Option Net)
    (s : MonitorState) :
    ((checkAllIntents env net s).1).intents = s.intents ∧
    ((checkAllIntents env net s).1).violations = s.violations ∧
    ((checkAllIntents env net s).1).recoveryActions = s.recoveryActions ∧
    ((checkAllIntents env net s).1).recoveryEnabled = s.recoveryEnabled ∧
    ((checkAllIntents env net s).1).maxRecoveryAttempts = s.maxRecoveryAttempts ∧
    ((checkAllIntents env net s).1).recoveryAttempts = s.recoveryAttempts ∧
    ((checkAllIntents env net s).1).notifications = s.notifications ∧
    ((checkAllIntents env net s).1).log = s.log :=
  ⟨rfl, rfl, rfl, rfl, rfl, rfl, rfl, rfl⟩

/-- The violations returned by `_check_all_intents`. -/
theorem checkAllIntents_viols (env : Env) (net : Option Net)
    (s : MonitorState) :
    (checkAllIntents env net s).2 = s.intents.filterMap (violOf env net) := by
  simp only [checkAllIntents]
  rw [foldl_checkStep_viols]
  simp

/-- The operator notification `_handle_violations` emits for one
violation, if any, as a function of the configuration and counters. -/
def notifyOfAux (enabled : Bool)
    (attempts : List ((String × IntentType) × ℤ)) (maxAttempts : ℤ)
    (v : IntentViolation) : Option (String × String) :=
  if enabled && canRecoverAux attempts maxAttempts v then none
  else if enabled && !(canRecoverAux attempts maxAttempts v) then
    some (v.intent_id, "Max recovery attempts reached.")
  else some (v.intent_id, "Automatic recovery is disabled.")

/-- The operator notification `_handle_violations` emits for one
violation, if any. -/
def notifyOf (s : MonitorState) (v : IntentViolation) :
    Option (String × String) :=
  notifyOfAux s.recoveryEnabled s.recoveryAttempts s.maxRecoveryAttempts v

theorem handleViolation1_eq (s : MonitorState) (v : IntentViolation) :
    handleViolation1 s v =
      { s with violations := s.violations ++ [v],
               log := s.log ++ ["violation " ++ v.intent_id],
               recoveryActions := s.recoveryActions ++
                 (if s.recoveryEnabled && canRecover s v then [v] else []),
               notifications := s.notifications ++ (notifyOf s v).toList } := by
  simp only [handleViolation1, notifyOf, notifyOfAux, canRecover]
  by_cases h1 : s.recoveryEnabled <;>
    by_cases h2 : canRecoverAux s.recoveryAttempts s.maxRecoveryAttempts v <;>
      simp [h1, h2]

/-- Batch form of `_handle_violations`: append everything to the
violation history, enqueue exactly those violations that pass the
`recovery_enabled` and `_can_recover` gate, and notify the operator for
the rest. -/
def handleViolationsB (s : MonitorState) (vs : List IntentViolation) :
    MonitorState :=
  { s with violations := s.violations ++ vs,
           log := s.log ++ vs.map (fun v => "violation " ++ v.intent_id),
           recoveryActions := s.recoveryActions ++
             vs.filter (fun v => s.recoveryEnabled && canRecover s v),
           notifications := s.notifications ++ vs.filterMap
             (notifyOfAux s.recoveryEnabled s.recoveryAttempts
               s.maxRecoveryAttempts) }

theorem handleViolations_eq_batch :
    ∀ (vs : List IntentViolation) (s : MonitorState),
      handleViolations s vs = handleViolationsB s vs := by
  intro vs
  induction vs with
  | nil =>
      intro s
      simp [handleViolations, handleViolationsB]
  | cons v vs ih =>
      intro s
      show handleViolations (handleViolation1 s v) vs = _
      rw [ih, handleViolation1_eq]
      by_cases h1 : s.recoveryEnabled <;>
        by_cases h2 : canRecoverAux s.recoveryAttempts s.maxRecoveryAttempts v <;>
          simp [handleViolationsB, notifyOf, notifyOfAux, canRecover,
            h1, h2, List.filter_cons, List.filterMap_cons]

/-- `_execute_recovery` touches only the attempt counters, the log and
the notifications: statuses, metrics, histories, the queue and the
configuration are left exactly as they were. -/
theorem executeRecovery_frame (env : Env) (s : MonitorState)
    (v : IntentViolation) :
    (executeRecovery env s v).intentStatus = s.intentStatus ∧
    (executeRecovery env s v).intentMetrics = s.intentMetrics ∧
    (executeRecovery env s v).intents = s.intents ∧
    (executeRecovery env s v).violations = s.violations ∧
    (executeRecovery env s v).recoveryActions = s.recoveryActions ∧
    (executeRecovery env s v).recoveryEnabled = s.recoveryEnabled ∧
    (executeRecovery env s v).maxRecoveryAttempts = s.maxRecoveryAttempts := by
  simp only [executeRecovery, bumpAttempts]
  by_cases hs : hasRecoveryStrategy v.intent_type
  all_goals by_cases ho : env.recoverOk v
  all_goals simp [hs, ho]
  all_goals split
  all_goals simp

/-- The counter value right after the unconditional increment that
opens `_execute_recovery`. -/
theorem bumpAttempts_getK (s : MonitorState) (v : IntentViolation) :
    getK (bumpAttempts s v).recoveryAttempts (v.intent_id, v.intent_type) =
      some ((getK s.recoveryAttempts (v.intent_id, v.intent_type)).getD 0 + 1) := by
  simp only [bumpAttempts]
  exact getK_setK_same _ _ _

/-- The counter after a full dispatcher invocation: 0 exactly when the
strategy existed and succeeded, the old value plus one otherwise. -/
theorem executeRecovery_attempts (env : Env) (s : MonitorState)
    (v : IntentViolation) :
    (getK (executeRecovery env s v).recoveryAttempts
        (v.intent_id, v.intent_type)).getD 0 =
      if hasRecoveryStrategy v.intent_type && env.recoverOk v then 0
      else (getK s.recoveryAttempts (v.intent_id, v.intent_type)).getD 0 + 1 := by
  simp only [executeRecovery, bumpAttempts]
  by_cases hs : hasRecoveryStrategy v.intent_type <;>
    by_cases ho : env.recoverOk v <;>
      simp only [hs, ho, Bool.true_and, Bool.false_and, if_true, if_false,
        Bool.and_self, ite_true, ite_false] <;>
      first
        | (split_ifs <;> simp [getK_setK_same])
        | simp [getK_setK_same]

/-- On success the dispatcher logs the success; on failure after the
counter has reached the maximum it emits the operator notification. -/
theorem executeRecovery_outputs (env : Env) (s : MonitorState)
    (v : IntentViolation) (hs : hasRecoveryStrategy v.intent_type = true) :
    (env.recoverOk v = true →
      (executeRecovery env s v).log =
        s.log ++ ["recovery_attempt " ++ v.intent_id,
                  "recovery_success " ++ v.intent_id] ∧
      (executeRecovery env s v).notifications = s.notifications) ∧
    (env.recoverOk v = false →
      (getK s.recoveryAttempts (v.intent_id, v.intent_type)).getD 0 + 1 ≥
          s.maxRecoveryAttempts →
      (executeRecovery env s v).notifications =
        s.notifications ++
          [(v.intent_id, "Recovery failed after max attempts.")]) := by
  constructor
  · intro ho
    simp [executeRecovery, bumpAttempts, hs, ho]
  · intro ho hge
    simp only [executeRecovery, bumpAttempts, hs, ho, if_true, if_false,
      Bool.false_eq_true, getK_setK_same, Option.getD_some]
    rw [if_pos hge]
    try simp

/-- `_monitoring_loop`'s body is `_check_all_intents` followed by
`_handle_violations` (the empty-violation guard is a no-op). -/
theorem monitorTick_eq (env : Env) (net : Option Net) (s : MonitorState) :
    monitorTick env net s =
      handleViolations (checkAllIntents env net s).1
        (checkAllIntents env net s).2 := by
  simp only [monitorTick]
  rcases h : (checkAllIntents env net s).2 with _ | ⟨a, rest⟩
  · simp [h, handleViolations]
  · simp [h]

/-- All the tick's outputs at once, in batch form. -/
theorem monitorTick_eq_batch (env : Env) (net : Option Net)
    (s : MonitorState) :
    monitorTick env net s =
      handleViolationsB (checkAllIntents env net s).1
        (s.intents.filterMap (violOf env net)) := by
  rw [monitorTick_eq, handleViolations_eq_batch, checkAllIntents_viols]

/-- Fields of the state a tick never changes. -/
theorem monitorTick_frame (env : Env) (net : Option Net) (s : MonitorState) :
    (monitorTick env net s).intents = s.intents ∧
    (monitorTick env net s).recoveryAttempts = s.recoveryAttempts ∧
    (monitorTick env net s).recoveryEnabled = s.recoveryEnabled ∧
    (monitorTick env net s).maxRecoveryAttempts = s.maxRecoveryAttempts := by
  rw [monitorTick_eq_batch]
  exact ⟨rfl, rfl, rfl, rfl⟩

/-- The recovery queue after a tick: the old queue, then the new
violations that pass the `recovery_enabled` and `_can_recover` gate. -/
theorem monitorTick_actions (env : Env) (net : Option Net)
    (s : MonitorState) :
    (monitorTick env net s).recoveryActions =
      s.recoveryActions ++ (s.intents.filterMap (violOf env net)).filter
        (fun v => s.recoveryEnabled && canRecover s v) := by
  rw [monitorTick_eq_batch]
  rfl

/-- The status an intent with a unique id holds after a tick is exactly
its check result. -/
theorem monitorTick_status_mem (env : Env) (net : Option Net)
    (s : MonitorState) (intentId : String) (spec : IntentSpec)
    (hmem : (intentId, spec) ∈ s.intents)
    (hnd : (keysOf s.intents).Nodup) :
    getK (monitorTick env net s).intentStatus intentId =
      some (checkIntent env net spec).1 := by
  rw [monitorTick_eq_batch]
  show getK ((checkAllIntents env net s).1).intentStatus intentId = _
  exact foldl_checkStep_status_mem env net s.intents _ intentId spec hmem hnd

/-- Any status present after a tick either is a check result (hence
SATISFIED, VIOLATED or UNKNOWN) or was already present before. -/
theorem monitorTick_status_cases (env : Env) (net : Option Net)
    (s : MonitorState) (k : String) (st : IntentStatus)
    (h : getK (monitorTick env net s).intentStatus k = some st) :
    (st = IntentStatus.SATISFIED ∨ st = IntentStatus.VIOLATED ∨
      st = IntentStatus.UNKNOWN) ∨ getK s.intentStatus k = some st := by
  rw [monitorTick_eq_batch] at h
  have h' : getK ((checkAllIntents env net s).1).intentStatus k = some st := h
  rcases foldl_checkStep_status_cases env net s.intents _ k st h' with
    ⟨spec, _, hst⟩ | hold
  · exact Or.inl (hst ▸ checkIntent_status_mem env net spec)
  · exact Or.inr hold

/-- The violation history after a tick. -/
theorem monitorTick_violations (env : Env) (net : Option Net)
    (s : MonitorState) :
    (monitorTick env net s).violations =
      s.violations ++ s.intents.filterMap (violOf env net) := by
  rw [monitorTick_eq_batch]
  rfl

/-- The operator notifications after a tick. -/
theorem monitorTick_notifications (env : Env) (net : Option Net)
    (s : MonitorState) :
    (monitorTick env net s).notifications =
      s.notifications ++ (s.intents.filterMap (violOf env net)).filterMap
        (notifyOfAux s.recoveryEnabled s.recoveryAttempts
          s.maxRecoveryAttempts) := by
  rw [monitorTick_eq_batch]
  rfl

/-- The metric entry of an intent with a unique id after a tick. -/
theorem monitorTick_metrics_mem (env : Env) (net : Option Net)
    (s : MonitorState) (intentId : String) (spec : IntentSpec)
    (hmem : (intentId, spec) ∈ s.intents)
    (hnd : (keysOf s.intents).Nodup) :
    getK (monitorTick env net s).intentMetrics intentId =
      some (metricAfter (getK s.intentMetrics intentId)
        (checkIntent env net spec).2) := by
  rw [monitorTick_eq_batch]
  show getK ((checkAllIntents env net s).1).intentMetrics intentId = _
  exact foldl_checkStep_metrics_mem env net s.intents _ intentId spec hmem hnd

/-- Intent types without a `_check_intent` branch get `(UNKNOWN, None)`. -/
theorem checkIntent_unhandled (env : Env) (net : Option Net)
    (spec : IntentSpec)
    (hty : spec.type = IntentType.JITTER ∨
      spec.type = IntentType.LINK_UTILIZATION) :
    checkIntent env net spec = (IntentStatus.UNKNOWN, none) := by
  rcases hty with h | h <;> simp [checkIntent, h]

theorem canRecoverAux_false_of_ge (attempts : List ((String × IntentType) × ℤ))
    (maxA : ℤ) (v : IntentViolation)
    (h : (getK attempts (v.intent_id, v.intent_type)).getD 0 ≥ maxA) :
    canRecoverAux attempts maxA v = false := by
  simp [canRecoverAux, h]

theorem eq_of_mem_of_nodup_keys {α β : Type} :
    ∀ (l : List (α × β)) (k : α) (a b : β),
      (l.map Prod.fst).Nodup → (k, a) ∈ l → (k, b) ∈ l → a = b := by
  intro l
  induction l with
  | nil => intro k a b _ h1 _; cases h1
  | cons p rest ih =>
      intro k a b hnd h1 h2
      obtain ⟨k', v'⟩ := p
      simp only [List.map_cons, List.nodup_cons] at hnd
      rcases List.mem_cons.1 h1 with he1 | ht1 <;>
        rcases List.mem_cons.1 h2 with he2 | ht2
      · rw [← he2] at he1
        exact congrArg Prod.snd he1
      · exfalso
        apply hnd.1
        have hk : k = k' := congrArg Prod.fst he1
        rw [← hk]
        exact List.mem_map_of_mem Prod.fst ht2
      · exfalso
        apply hnd.1
        have hk : k = k' := congrArg Prod.fst he2
        rw [← hk]
        exact List.mem_map_of_mem Prod.fst ht1
      · exact ih k a b hnd.2 ht1 ht2

/-! ### Concrete fixtures for closed runs -/

/-- A connectivity intent as `_parse_intents` builds it. -/
def specConn : IntentSpec :=
  { type := IntentType.CONNECTIVITY, endpoints := some ("h1", "h2"),
    expected := some (Val.vBool true) }

/-- Initial monitor state over one connectivity intent, with the
source's defaults (`recovery_enabled = True`,
`max_recovery_attempts = 3`). -/
def s0 : MonitorState :=
  { intents := [("conn_h1-h2", specConn)]
    intentStatus := []
    intentMetrics := []
    violations := []
    recoveryActions := []
    recoveryEnabled := true
    maxRecoveryAttempts := 3
    recoveryAttempts := []
    notifications := []
    log := [] }

/-- A world where every probe reports a violation and every recovery
action fails. -/
def envBad : Env :=
  { probe := fun _ => ProbeResult.bad 0, recoverOk := fun _ => false }

/-- A world where every probe passes and every recovery action
succeeds. -/
def envGood : Env :=
  { probe := fun _ => ProbeResult.ok 1, recoverOk := fun _ => true }

/-- The violation the tick reports for `specConn` under `envBad`. -/
def violC1 : IntentViolation := mkViolation "conn_h1-h2" specConn (some 0)

/-- Three monitor ticks each followed by one recovery-loop pass, under
`envBad`: three consecutive failed recovery attempts. -/
def runC1 : MonitorState :=
  recoveryStep envBad (monitorTick envBad none
    (recoveryStep envBad (monitorTick envBad none
      (recoveryStep envBad (monitorTick envBad none s0)))))

/-- `s0` with a stale status entry not backed by any current intent. -/
def sGhost : MonitorState :=
  { s0 with intentStatus := [("ghost", IntentStatus.UNRECOVERABLE)] }

/-- `s0` with the attempt counter already at the maximum and one
violation still queued. -/
def sMaxed : MonitorState :=
  { s0 with recoveryActions := [violC1],
            recoveryAttempts := [(("conn_h1-h2", IntentType.CONNECTIVITY), 3)] }

/-- `s0` with automatic recovery disabled. -/
def sDisabled : MonitorState := { s0 with recoveryEnabled := false }

/-- A jitter intent as `_parse_intents` builds it; `_check_intent` has
no branch for its type. -/
def specJit : IntentSpec :=
  { type := IntentType.JITTER, endpoints := some ("h1", "h2"),
    expected := some (Val.vNum 5), unit := some "ms" }

/-- State holding one jitter intent previously checked SATISFIED. -/
def sJit : MonitorState :=
  { s0 with intents := [("jitter_h1-h2", specJit)],
            intentStatus := [("jitter_h1-h2", IntentStatus.SATISFIED)] }

/-- A CPU-usage intent as `_parse_intents` builds it. -/
def specCpu : IntentSpec :=
  { type := IntentType.CPU_USAGE, host := some "h1",
    expected := some (Val.vNum 1), unit := some "cores" }

/-- State holding one CPU-usage intent. -/
def sCpu : MonitorState := { s0 with intents := [("cpu_h1", specCpu)] }

/-- A memory-usage intent as `_parse_intents` builds it. -/
def specMem : IntentSpec :=
  { type := IntentType.MEMORY_USAGE, host := some "h1",
    expected := some (Val.vNum 512), unit := some "MB" }

/-- State holding one memory-usage intent. -/
def sMem : MonitorState := { s0 with intents := [("mem_h1", specMem)] }

/-- A net in which every host is found and has a working `cmd`. -/
def netMem : Net := { get := fun _ => some { hasCmd := true } }

/-- Three hosts but only one declared connection: a topology on which
per-connection derivation and full-mesh derivation differ. -/
def topoC4 : Topology :=
  { connections := [{ endpoints := ["h1", "h2"], params := [] }]
    hosts := [{ id := "h1" }, { id := "h2" }, { id := "h3" }] }

/-! ### Claim theorems -/

/-- C1 counterexample: after `max_recovery_attempts = 3` consecutive
failed recovery attempts for the pair `(conn_h1-h2, CONNECTIVITY)`, the
attempt counter stands at the configured maximum, yet the intent's
status is VIOLATED — the code never assigns UNRECOVERABLE. -/
theorem C1_counterexample :
    getK runC1.recoveryAttempts ("conn_h1-h2", IntentType.CONNECTIVITY) =
      some 3 ∧
    runC1.maxRecoveryAttempts = 3 ∧
    getK runC1.intentStatus "conn_h1-h2" = some IntentStatus.VIOLATED ∧
    IntentStatus.VIOLATED ≠ IntentStatus.UNRECOVERABLE := by
  decide

/-- C1 (amended): the status UNRECOVERABLE is never assigned — a
monitor tick writes only check results (never UNRECOVERABLE) and the
recovery dispatcher never writes statuses at all — and once the
`(intentId, intentType)` attempt counter has reached the configured
maximum, a tick enqueues no further recovery attempt for that pair
(the dispatcher emits an operator notification instead of a status
transition). -/
theorem C1_amended (env : Env) (net : Option Net) (s : MonitorState) :
    (∀ k st, getK (monitorTick env net s).intentStatus k = some st →
      st = IntentStatus.UNRECOVERABLE → getK s.intentStatus k = some st) ∧
    (recoveryStep env s).intentStatus = s.intentStatus ∧
    (∀ v, v ∈ (monitorTick env net s).recoveryActions →
      (getK s.recoveryAttempts (v.intent_id, v.intent_type)).getD 0 ≥
        s.maxRecoveryAttempts →
      v ∈ s.recoveryActions) := by
  refine ⟨?_, ?_, ?_⟩
  · intro k st h hst
    rcases monitorTick_status_cases env net s k st h with h3 | hold
    · rcases h3 with h' | h' | h' <;> simp [hst] at h'
    · exact hold
  · cases hact : s.recoveryActions with
    | nil => simp [recoveryStep, hact]
    | cons a rest =>
        simp only [recoveryStep, hact]
        exact (executeRecovery_frame env _ a).1
  · intro v hv hge
    rw [monitorTick_actions] at hv
    rcases List.mem_append.1 hv with h | h
    · exact h
    · exfalso
      have hp := List.of_mem_filter h
      rw [canRecover,
        canRecoverAux_false_of_ge s.recoveryAttempts s.maxRecoveryAttempts
          v hge] at hp
      simp at hp

/-- C1 witness: the amended theorem applied at concrete states — a
stale UNRECOVERABLE entry survives a tick only because it was already
there; the dispatcher leaves the status map alone; and the queued
violation of an exhausted pair is only the one queued before. -/
theorem C1_witness :
    getK sGhost.intentStatus "ghost" = some IntentStatus.UNRECOVERABLE ∧
    (recoveryStep envBad s0).intentStatus = s0.intentStatus ∧
    violC1 ∈ sMaxed.recoveryActions :=
  ⟨(C1_amended envBad none sGhost).1 "ghost" IntentStatus.UNRECOVERABLE
      (by decide) rfl,
   (C1_amended envBad none s0).2.1,
   (C1_amended envBad none sMaxed).2.2 violC1 (by decide) (by decide)⟩

/-- C2 counterexample: a failing check with recovery enabled, a handler
registered and the counter at 0 does append the violation to the
recovery queue, but the intent's status is set to VIOLATED, not
RECOVERING — the code never assigns RECOVERING. -/
theorem C2_counterexample :
    (monitorTick envBad none s0).recoveryActions = [violC1] ∧
    getK (monitorTick envBad none s0).intentStatus "conn_h1-h2" =
      some IntentStatus.VIOLATED ∧
    IntentStatus.VIOLATED ≠ IntentStatus.RECOVERING := by
  decide

/-- C2 (amended): for every intent whose check fails during a tick, the
violation is appended to the violation history; when recovery is
enabled and `_can_recover` passes (handler registered and counter below
maximum) it is also appended to the recovery queue, while the status is
set to VIOLATED (RECOVERING is never assigned); otherwise an operator
notification is emitted — "Max recovery attempts reached." whenever
recovery is enabled but `_can_recover` fails (counter exhausted or no
handler), "Automatic recovery is disabled." when recovery is off. -/
theorem C2_amended (env : Env) (net : Option Net) (s : MonitorState)
    (intentId : String) (spec : IntentSpec)
    (hmem : (intentId, spec) ∈ s.intents)
    (hnd : (keysOf s.intents).Nodup)
    (hviol : (checkIntent env net spec).1 = IntentStatus.VIOLATED) :
    mkViolation intentId spec (checkIntent env net spec).2 ∈
      (monitorTick env net s).violations ∧
    getK (monitorTick env net s).intentStatus intentId =
      some IntentStatus.VIOLATED ∧
    (s.recoveryEnabled = true →
      canRecover s (mkViolation intentId spec (checkIntent env net spec).2) =
        true →
      mkViolation intentId spec (checkIntent env net spec).2 ∈
        (monitorTick env net s).recoveryActions) ∧
    (s.recoveryEnabled = true →
      canRecover s (mkViolation intentId spec (checkIntent env net spec).2) =
        false →
      (intentId, "Max recovery attempts reached.") ∈
        (monitorTick env net s).notifications) ∧
    (s.recoveryEnabled = false →
      (intentId, "Automatic recovery is disabled.") ∈
        (monitorTick env net s).notifications) := by
  have hvof : violOf env net (intentId, spec) =
      some (mkViolation intentId spec (checkIntent env net spec).2) := by
    simp [violOf, hviol]
  have hvs : mkViolation intentId spec (checkIntent env net spec).2 ∈
      s.intents.filterMap (violOf env net) :=
    List.mem_filterMap.2 ⟨(intentId, spec), hmem, hvof⟩
  refine ⟨?_, ?_, ?_, ?_, ?_⟩
  · rw [monitorTick_violations]
    exact List.mem_append_right _ hvs
  · rw [monitorTick_status_mem env net s intentId spec hmem hnd, hviol]
  · intro he hcr
    rw [monitorTick_actions]
    refine List.mem_append_right _ (List.mem_filter.2 ⟨hvs, ?_⟩)
    simp [he, hcr]
  · intro he hcr
    rw [monitorTick_notifications]
    refine List.mem_append_right _ (List.mem_filterMap.2
      ⟨mkViolation intentId spec (checkIntent env net spec).2, hvs, ?_⟩)
    have hcr' : canRecoverAux s.recoveryAttempts s.maxRecoveryAttempts
        (mkViolation intentId spec (checkIntent env net spec).2) = false := hcr
    simp only [notifyOfAux, he, hcr']
    simp [mkViolation]
  · intro he
    rw [monitorTick_notifications]
    refine List.mem_append_right _ (List.mem_filterMap.2
      ⟨mkViolation intentId spec (checkIntent env net spec).2, hvs, ?_⟩)
    simp [notifyOfAux, he, mkViolation]

/-- C2 witness: the amended theorem at concrete states — enqueue plus
VIOLATED status when the gate passes, the two notification texts when
the counter is exhausted resp. recovery is disabled. -/
theorem C2_witness :
    violC1 ∈ (monitorTick envBad none s0).recoveryActions ∧
    (("conn_h1-h2" : String), ("Max recovery attempts reached." : String)) ∈
      (monitorTick envBad none sMaxed).notifications ∧
    (("conn_h1-h2" : String), ("Automatic recovery is disabled." : String)) ∈
      (monitorTick envBad none sDisabled).notifications :=
  ⟨(C2_amended envBad none s0 "conn_h1-h2" specConn (by decide) (by decide)
      (by decide)).2.2.1 rfl (by decide),
   (C2_amended envBad none sMaxed "conn_h1-h2" specConn (by decide)
      (by decide) (by decide)).2.2.2.1 rfl (by decide),
   (C2_amended envBad none sDisabled "conn_h1-h2" specConn (by decide)
      (by decide) (by decide)).2.2.2.2 rfl⟩

/-- C3: each dispatcher invocation increments the pair's counter by
exactly one before the handler runs; the final counter is 0 exactly
when the strategy existed and succeeded; and the counter stays
non-negative. -/
theorem C3_attempt_counter (env : Env) (s : MonitorState)
    (v : IntentViolation)
    (hnn : 0 ≤ (getK s.recoveryAttempts (v.intent_id, v.intent_type)).getD 0) :
    getK (bumpAttempts s v).recoveryAttempts (v.intent_id, v.intent_type) =
      some ((getK s.recoveryAttempts (v.intent_id, v.intent_type)).getD 0 + 1) ∧
    ((getK (executeRecovery env s v).recoveryAttempts
        (v.intent_id, v.intent_type)).getD 0 = 0 ↔
      (hasRecoveryStrategy v.intent_type && env.recoverOk v) = true) ∧
    0 ≤ (getK (executeRecovery env s v).recoveryAttempts
        (v.intent_id, v.intent_type)).getD 0 := by
  refine ⟨bumpAttempts_getK s v, ?_, ?_⟩
  · rw [executeRecovery_attempts]
    by_cases hb : (hasRecoveryStrategy v.intent_type && env.recoverOk v) = true
    · simp [hb]
    · rw [if_neg hb]
      constructor
      · intro h
        exact absurd h (by omega)
      · intro h
        exact absurd h hb
  · rw [executeRecovery_attempts]
    split
    · omega
    · omega

/-- C3 witness: the theorem at a concrete state with a zero counter. -/
theorem C3_witness :
    getK (bumpAttempts s0 violC1).recoveryAttempts
      ("conn_h1-h2", IntentType.CONNECTIVITY) = some 1 :=
  (C3_attempt_counter envBad s0 violC1 (by decide)).1

/-- C4 counterexample: on a snapshot with three hosts but a single
declared connection, derivation produces exactly one CONNECTIVITY
intent, not one per unordered pair of hosts (of which there are
three): the full-mesh reading of the derivation is false. -/
theorem C4_counterexample :
    (parseIntents topoC4).countP (isType IntentType.CONNECTIVITY) = 1 ∧
    (specFullMeshPairs topoC4.hosts).length = 3 ∧
    (1 : ℕ) ≠ 3 := by
  decide

/-- C4 (amended): when the generated intent keys are pairwise distinct,
derivation produces exactly the per-connection and per-host entries in
order — one CONNECTIVITY intent per connection with exactly two
endpoints (not per unordered pair of hosts), one intent per link
parameter among bandwidth/delay/loss/jitter present in the connection's
parameter map, and one intent per cpu/memory cap present on a host
record. -/
theorem C4_amended (t : Topology)
    (hnd : (keysOf (intentPairs t)).Nodup) :
    parseIntents t = intentPairs t ∧
    (parseIntents t).countP (isType IntentType.CONNECTIVITY) =
      t.connections.countP (fun c => decide (c.endpoints.length = 2)) ∧
    (parseIntents t).countP (isType IntentType.BANDWIDTH) =
      t.connections.countP (fun c => decide (c.endpoints.length = 2 ∧
        (getK c.params "bandwidth").isSome)) ∧
    (parseIntents t).countP (isType IntentType.DELAY) =
      t.connections.countP (fun c => decide (c.endpoints.length = 2 ∧
        (getK c.params "delay").isSome)) ∧
    (parseIntents t).countP (isType IntentType.PACKET_LOSS) =
      t.connections.countP (fun c => decide (c.endpoints.length = 2 ∧
        (getK c.params "loss").isSome)) ∧
    (parseIntents t).countP (isType IntentType.JITTER) =
      t.connections.countP (fun c => decide (c.endpoints.length = 2 ∧
        (getK c.params "jitter").isSome)) ∧
    (parseIntents t).countP (isType IntentType.CPU_USAGE) =
      t.hosts.countP (fun h => h.cpu.isSome) ∧
    (parseIntents t).countP (isType IntentType.MEMORY_USAGE) =
      t.hosts.countP (fun h => h.memory.isSome) := by
  have hins : parseIntents t = intentPairs t := by
    have h := insertAll_eq_append (intentPairs t) [] hnd (by
      intro k _
      simp [keysOf])
    simpa [parseIntents] using h
  refine ⟨hins, ?_, ?_, ?_, ?_, ?_, ?_, ?_⟩
  · rw [hins, countP_intentPairs_conn t _ (Or.inl rfl),
      List.map_congr_left (fun c _ => countP_connIntents_connectivity c)]
    exact sum_map_ite_prop _ _
  · rw [hins, countP_intentPairs_conn t _ (Or.inr (Or.inl rfl)),
      List.map_congr_left (fun c _ => countP_connIntents_bandwidth c)]
    exact sum_map_ite_prop _ _
  · rw [hins, countP_intentPairs_conn t _ (Or.inr (Or.inr (Or.inl rfl))),
      List.map_congr_left (fun c _ => countP_connIntents_delay c)]
    exact sum_map_ite_prop _ _
  · rw [hins,
      countP_intentPairs_conn t _ (Or.inr (Or.inr (Or.inr (Or.inl rfl)))),
      List.map_congr_left (fun c _ => countP_connIntents_loss c)]
    exact sum_map_ite_prop _ _
  · rw [hins,
      countP_intentPairs_conn t _ (Or.inr (Or.inr (Or.inr (Or.inr rfl)))),
      List.map_congr_left (fun c _ => countP_connIntents_jitter c)]
    exact sum_map_ite_prop _ _
  · rw [hins, countP_intentPairs_host t _ (Or.inl rfl),
      List.map_congr_left (fun h _ => countP_hostIntents_cpu h)]
    exact sum_map_ite_eq_countP _ _
  · rw [hins, countP_intentPairs_host t _ (Or.inr rfl),
      List.map_congr_left (fun h _ => countP_hostIntents_mem h)]
    exact sum_map_ite_eq_countP _ _

/-- C4 witness: the amended theorem at the concrete three-host
topology. -/
theorem C4_witness :
    parseIntents topoC4 = intentPairs topoC4 ∧
    (parseIntents topoC4).countP (isType IntentType.CONNECTIVITY) =
      topoC4.connections.countP (fun c => decide (c.endpoints.length = 2)) :=
  ⟨(C4_amended topoC4 (by decide)).1, (C4_amended topoC4 (by decide)).2.1⟩

/-- C5 counterexample: a tick over an intent whose type has no check
branch (JITTER) does not leave its recorded state untouched: the
previously recorded SATISFIED status is overwritten with UNKNOWN (and
no warning is logged anywhere in that path). -/
theorem C5_counterexample :
    getK (monitorTick envBad none sJit).intentStatus "jitter_h1-h2" =
      some IntentStatus.UNKNOWN ∧
    getK sJit.intentStatus "jitter_h1-h2" = some IntentStatus.SATISFIED ∧
    IntentStatus.UNKNOWN ≠ IntentStatus.SATISFIED := by
  decide

/-- C5 (amended): an intent whose type has no check branch (JITTER or
LINK_UTILIZATION) is effectively skipped each tick without a warning:
its status entry is set to UNKNOWN (not left untouched), its metric
history receives no sample (the entry is only created empty if absent),
it produces no violation, and the tick still completes, giving every
other intent its own check result. -/
theorem C5_amended (env : Env) (net : Option Net) (s : MonitorState)
    (intentId : String) (spec : IntentSpec)
    (hmem : (intentId, spec) ∈ s.intents)
    (hnd : (keysOf s.intents).Nodup)
    (hty : spec.type = IntentType.JITTER ∨
      spec.type = IntentType.LINK_UTILIZATION) :
    getK (monitorTick env net s).intentStatus intentId =
      some IntentStatus.UNKNOWN ∧
    getK (monitorTick env net s).intentMetrics intentId =
      some ((getK s.intentMetrics intentId).getD []) ∧
    (∀ v, v ∈ (monitorTick env net s).violations → v ∉ s.violations →
      v.intent_id ≠ intentId) ∧
    (∀ (id2 : String) (spec2 : IntentSpec), (id2, spec2) ∈ s.intents →
      id2 ≠ intentId →
      getK (monitorTick env net s).intentStatus id2 =
        some (checkIntent env net spec2).1) := by
  have hchk := checkIntent_unhandled env net spec hty
  refine ⟨?_, ?_, ?_, ?_⟩
  · rw [monitorTick_status_mem env net s intentId spec hmem hnd, hchk]
  · rw [monitorTick_metrics_mem env net s intentId spec hmem hnd, hchk]
    simp [metricAfter]
  · intro v hv hnot
    rw [monitorTick_violations] at hv
    rcases List.mem_append.1 hv with h | h
    · exact absurd h hnot
    · obtain ⟨p, hp, hvof⟩ := List.mem_filterMap.1 h
      obtain ⟨k2, spec2⟩ := p
      simp only [violOf] at hvof
      split at hvof
      case isTrue hcond =>
        intro heq
        have hv2 : v = mkViolation k2 spec2 (checkIntent env net spec2).2 :=
          (Option.some_inj.1 hvof).symm
        have hk2 : k2 = intentId := by
          rw [hv2] at heq
          exact heq
        rw [hk2] at hp
        have hspec : spec2 = spec :=
          eq_of_mem_of_nodup_keys s.intents intentId spec2 spec hnd hp hmem
        rw [hspec, hchk] at hcond
        simp at hcond
      case isFalse _ => exact absurd hvof (by simp)
  · intro id2 spec2 hm2 _
    exact monitorTick_status_mem env net s id2 spec2 hm2 hnd

/-- C5 witness: the amended theorem at the concrete jitter state. -/
theorem C5_witness :
    getK (monitorTick envBad none sJit).intentStatus "jitter_h1-h2" =
      some IntentStatus.UNKNOWN ∧
    getK (monitorTick envBad none sJit).intentMetrics "jitter_h1-h2" =
      some [] :=
  ⟨(C5_amended envBad none sJit "jitter_h1-h2" specJit (by decide)
      (by decide) (Or.inl rfl)).1,
   (C5_amended envBad none sJit "jitter_h1-h2" specJit (by decide)
      (by decide) (Or.inl rfl)).2.1⟩

/-- The first of the most recent 3 samples (`recent[0]`). -/
def trendFirst (values : List ℚ) : ℚ :=
  (values.drop (values.length - 3)).headD 0

/-- The last of the most recent 3 samples (`recent[-1]`). -/
def trendLast (values : List ℚ) : ℚ :=
  (values.drop (values.length - 3)).getLastD 0

/-- C6: with fewer than 3 samples the trend is STABLE; with at least 3
samples and a positive first sample, the classification is DEGRADING
exactly when the last-to-first ratio exceeds 1.1, IMPROVING exactly
when it is below 0.9, and STABLE otherwise. -/
theorem C6_trend (values : List ℚ) :
    (values.length < 3 → getTrend values = Trend.STABLE) ∧
    (3 ≤ values.length → 0 < trendFirst values →
      ((getTrend values = Trend.DEGRADING ↔
          trendLast values / trendFirst values > 11 / 10) ∧
       (getTrend values = Trend.IMPROVING ↔
          trendLast values / trendFirst values < 9 / 10) ∧
       (¬ trendLast values / trendFirst values > 11 / 10 →
        ¬ trendLast values / trendFirst values < 9 / 10 →
        getTrend values = Trend.STABLE))) := by
  constructor
  · intro h
    simp [getTrend, h]
  · intro hlen hpos
    have hnl : ¬ values.length < 3 := not_lt.2 hlen
    have h1 : trendLast values > trendFirst values * (11 / 10) ↔
        trendLast values / trendFirst values > 11 / 10 := by
      rw [gt_iff_lt, gt_iff_lt, lt_div_iff₀ hpos, mul_comm]
    have h2 : trendLast values < trendFirst values * (9 / 10) ↔
        trendLast values / trendFirst values < 9 / 10 := by
      rw [div_lt_iff₀ hpos, mul_comm]
    have hgt : getTrend values =
        (if trendLast values > trendFirst values * (11 / 10) then
          Trend.DEGRADING
         else if trendLast values < trendFirst values * (9 / 10) then
          Trend.IMPROVING
         else Trend.STABLE) := by
      simp only [getTrend, hnl, if_false]
      rfl
    by_cases hda : trendLast values > trendFirst values * (11 / 10)
    · rw [hgt, if_pos hda]
      have hr := h1.1 hda
      refine ⟨iff_of_true rfl hr, iff_of_false (by simp) ?_, ?_⟩
      · intro hlt
        have hcontra : (11 : ℚ) / 10 < 9 / 10 := lt_trans hr hlt
        norm_num at hcontra
      · intro hn _
        exact absurd hr hn
    · by_cases him : trendLast values < trendFirst values * (9 / 10)
      · rw [hgt, if_neg hda, if_pos him]
        have hrIm := h2.1 him
        have hrD : ¬ trendLast values / trendFirst values > 11 / 10 :=
          fun hc => hda (h1.2 hc)
        exact ⟨iff_of_false (by simp) hrD, iff_of_true rfl hrIm,
          fun _ hn2 => absurd hrIm hn2⟩
      · rw [hgt, if_neg hda, if_neg him]
        have hrD : ¬ trendLast values / trendFirst values > 11 / 10 :=
          fun hc => hda (h1.2 hc)
        have hrI : ¬ trendLast values / trendFirst values < 9 / 10 :=
          fun hc => him (h2.2 hc)
        exact ⟨iff_of_false (by simp) hrD, iff_of_false (by simp) hrI,
          fun _ _ => rfl⟩

/-- C6 witness: the theorem at concrete histories — a 3-sample history
with ratio 2 classifies DEGRADING, a 1-sample history is STABLE. -/
theorem C6_witness :
    getTrend [1, 1, 2] = Trend.DEGRADING ∧ getTrend [1] = Trend.STABLE :=
  ⟨((C6_trend [1, 1, 2]).2 (by decide) (by decide)).1.2
      (by norm_num [trendLast, trendFirst]),
   (C6_trend [1]).1 (by decide)⟩

/-- C7: a metric history built by recording measurements into the
bounded deque never holds more than 10 samples, always equals the most
recent 10 measurements in order (FIFO), and recording into a full
history evicts exactly the oldest sample. -/
theorem C7_history_fifo (ms values : List ℚ) (v : ℚ)
    (hfull : values.length = 10) :
    (ms.foldl (addMeasurement 10) []).length ≤ 10 ∧
    ms.foldl (addMeasurement 10) [] = ms.drop (ms.length - 10) ∧
    addMeasurement 10 values v = values.tail ++ [v] := by
  have hmain := foldl_addMeasurement_eq_drop 10 ms [] (by simp)
  simp only [List.nil_append, List.length_nil, Nat.zero_add] at hmain
  refine ⟨?_, hmain, ?_⟩
  · rw [hmain]
    simp only [List.length_drop]
    omega
  · rw [addMeasurement, hfull]
    norm_num
    cases values with
    | nil => simp at hfull
    | cons a l => rfl

/-- C7 witness: the theorem at a concrete run and a concrete full
history. -/
theorem C7_witness :
    addMeasurement 10 [0, 1, 2, 3, 4, 5, 6, 7, 8, 9] 10 =
      ([0, 1, 2, 3, 4, 5, 6, 7, 8, 9] : List ℚ).tail ++ [10] :=
  (C7_history_fifo [] [0, 1, 2, 3, 4, 5, 6, 7, 8, 9] 10 (by decide)).2.2

/-- C8: when a recovery attempt succeeds, the dispatcher resets the
pair's counter to 0 and logs the success, but leaves the status map
(and the operator notifications) untouched; the SATISFIED transition
happens only when a subsequent monitor tick's check passes. -/
theorem C8_success_defers_status (env : Env) (s : MonitorState)
    (v : IntentViolation) (net : Option Net)
    (hs : hasRecoveryStrategy v.intent_type = true)
    (ho : env.recoverOk v = true) :
    (executeRecovery env s v).intentStatus = s.intentStatus ∧
    (getK (executeRecovery env s v).recoveryAttempts
      (v.intent_id, v.intent_type)).getD 0 = 0 ∧
    (executeRecovery env s v).log =
      s.log ++ ["recovery_attempt " ++ v.intent_id,
                "recovery_success " ++ v.intent_id] ∧
    (executeRecovery env s v).notifications = s.notifications ∧
    (∀ (s2 : MonitorState) (spec : IntentSpec),
      (v.intent_id, spec) ∈ s2.intents → (keysOf s2.intents).Nodup →
      (checkIntent env net spec).1 = IntentStatus.SATISFIED →
      getK (monitorTick env net s2).intentStatus v.intent_id =
        some IntentStatus.SATISFIED) := by
  refine ⟨(executeRecovery_frame env s v).1, ?_, ?_, ?_, ?_⟩
  · rw [executeRecovery_attempts]
    simp [hs, ho]
  · exact ((executeRecovery_outputs env s v hs).1 ho).1
  · exact ((executeRecovery_outputs env s v hs).1 ho).2
  · intro s2 spec hm hnd hok
    rw [monitorTick_status_mem env net s2 v.intent_id spec hm hnd, hok]

/-- C8 witness: the theorem at a concrete successful recovery followed
by a passing check. -/
theorem C8_witness :
    (executeRecovery envGood s0 violC1).intentStatus = s0.intentStatus ∧
    getK (monitorTick envGood none s0).intentStatus "conn_h1-h2" =
      some IntentStatus.SATISFIED :=
  ⟨(C8_success_defers_status envGood s0 violC1 none rfl rfl).1,
   (C8_success_defers_status envGood s0 violC1 none rfl rfl).2.2.2.2
     s0 specConn (by decide) (by decide) rfl⟩

/-- C9: the CPU check returns `(SATISFIED, 0)` unconditionally, so a
CPU_USAGE intent is never classified VIOLATED, never contributes a
violation record, and never enters the recovery queue. -/
theorem C9_cpu_never_violated (env : Env) (net : Option Net)
    (s : MonitorState) (spec : IntentSpec) (intentId : String) :
    checkCpuUsage spec = (IntentStatus.SATISFIED, some 0) ∧
    (spec.type = IntentType.CPU_USAGE →
      checkIntent env net spec = (IntentStatus.SATISFIED, some 0)) ∧
    (∀ v, v ∈ (monitorTick env net s).violations → v ∉ s.violations →
      v.intent_type ≠ IntentType.CPU_USAGE) ∧
    (∀ v, v ∈ (monitorTick env net s).recoveryActions →
      v ∉ s.recoveryActions → v.intent_type ≠ IntentType.CPU_USAGE) ∧
    ((intentId, spec) ∈ s.intents → (keysOf s.intents).Nodup →
      spec.type = IntentType.CPU_USAGE →
      getK (monitorTick env net s).intentStatus intentId =
        some IntentStatus.SATISFIED) := by
  have hnocpu : ∀ v, v ∈ s.intents.filterMap (violOf env net) →
      v.intent_type ≠ IntentType.CPU_USAGE := by
    intro v hv
    obtain ⟨p, hp, hvof⟩ := List.mem_filterMap.1 hv
    obtain ⟨k2, spec2⟩ := p
    simp only [violOf] at hvof
    split at hvof
    case isTrue hcond =>
      intro hty
      have hv2 : v = mkViolation k2 spec2 (checkIntent env net spec2).2 :=
        (Option.some_inj.1 hvof).symm
      rw [hv2] at hty
      have hty2 : spec2.type = IntentType.CPU_USAGE := hty
      rw [show checkIntent env net spec2 =
          (IntentStatus.SATISFIED, some 0) from by
        simp [checkIntent, hty2, checkCpuUsage]] at hcond
      simp at hcond
    case isFalse _ => exact absurd hvof (by simp)
  refine ⟨rfl, ?_, ?_, ?_, ?_⟩
  · intro h
    simp [checkIntent, h, checkCpuUsage]
  · intro v hv hnot
    rw [monitorTick_violations] at hv
    rcases List.mem_append.1 hv with h | h
    · exact absurd h hnot
    · exact hnocpu v h
  · intro v hv hnot
    rw [monitorTick_actions] at hv
    rcases List.mem_append.1 hv with h | h
    · exact absurd h hnot
    · exact hnocpu v (List.mem_of_mem_filter h)
  · intro hm hnd hty
    rw [monitorTick_status_mem env net s intentId spec hm hnd]
    simp [checkIntent, hty, checkCpuUsage]

/-- C10: the memory check returns `(UNKNOWN, None)` on every input —
in particular, when a net is attached and the host is found with a
`cmd` attribute, the shell-health guard's call to the undefined
`_ncheck_shell_health` raises `AttributeError`, which the catch-all
handler swallows — so a MEMORY_USAGE intent can never become SATISFIED
or VIOLATED. -/
theorem C10_memory_always_unknown (net : Option Net) (spec : IntentSpec)
    (n : Net) (h : NetHost) (env : Env) (s : MonitorState)
    (intentId : String) :
    checkMemoryUsage net spec = (IntentStatus.UNKNOWN, none) ∧
    (n.get (spec.host.getD "") = some h → h.hasCmd = true →
      checkMemoryUsageBody n (spec.host.getD "") =
        Except.error PyError.attributeError) ∧
    (spec.type = IntentType.MEMORY_USAGE →
      checkIntent env net spec = (IntentStatus.UNKNOWN, none)) ∧
    ((intentId, spec) ∈ s.intents → (keysOf s.intents).Nodup →
      spec.type = IntentType.MEMORY_USAGE →
      getK (monitorTick env net s).intentStatus intentId =
        some IntentStatus.UNKNOWN) := by
  refine ⟨checkMemoryUsage_eq net spec, ?_, ?_, ?_⟩
  · intro hget hcmd
    simp [checkMemoryUsageBody, hget, hcmd]
  · intro hty
    simp [checkIntent, hty, checkMemoryUsage_eq]
  · intro hm hnd hty
    rw [monitorTick_status_mem env net s intentId spec hm hnd]
    simp [checkIntent, hty, checkMemoryUsage_eq]

end IBN
